import Mathlib

/-!
Shallow embedding of `scripts/main.py` (LinkedIn job automation).

The script is a single class `LinkedInJobAutomation` driven by `run()`.
All interactions with the outside world (the Selenium driver, the
environment variables, the Google Sheets worksheet) are modelled by
explicit oracle parameters:

* whether each page navigation / element lookup succeeds,
* the listing cards the search page shows (or `none` for a timeout of
  the `WebDriverWait`),
* whether each `send_keys` on a free-text input succeeds,
* whether `worksheet.append_row` succeeds,
* the values of the cookie environment variables.

Python exceptions are modelled with `Except`; a `try/except` that
swallows the error becomes a total function returning the fallback
value.  The observable behaviour (rows appended to the sheet, order of
the side effects inside `apply_to_job`, states visited by an attempt) is
recorded explicitly so that the spec's claims can be stated about it.
-/

namespace LinkedInAutomation

/-- Configuration constant `MIN_SALARY_USD = 500` from `main.py`. -/
def MIN_SALARY_USD : Nat := 500

/-- Configuration constant `APPLICATION_DELAY = 5` (seconds; sleeps are not
otherwise modelled). -/
def APPLICATION_DELAY : Nat := 5

/-- The fixed ordered list `TARGET_COUNTRIES` from `main.py`. -/
def TARGET_COUNTRIES : List String :=
  ["Argentina", "Spain", "Mexico", "Colombia", "Chile", "Peru", "Uruguay",
   "Paraguay", "Bolivia", "Ecuador", "Venezuela", "Costa Rica", "Panama",
   "Guatemala", "El Salvador", "Honduras", "Nicaragua", "Dominican Republic"]

/-- A job posting as extracted by `get_job_listings`: the dict with keys
`title`, `company`, `link`. -/
structure Job where
  title : String
  company : String
  link : String
  deriving Repr, DecidableEq

/-- What happens when the fields of one `base-card` element are read:
either all three lookups succeed and yield a `Job`, or one of them raises
(the `except: continue` path of `get_job_listings`). -/
inductive CardResult where
  | ok (job : Job)
  | extractFailure
  deriving Repr, DecidableEq

/-- Field extraction of a single card, as an `Option`. -/
def extractCard : CardResult → Option Job
  | CardResult.ok j => some j
  | CardResult.extractFailure => none

/-- `get_job_listings`: the `WebDriverWait` either times out / raises
(`cards = none`, the outer `except: pass` leaves `jobs = []`) or yields
the page's cards; the slice `job_cards[:10]` keeps at most ten, and a
card whose fields cannot be read is skipped (`except: continue`). -/
def get_job_listings (cards : Option (List CardResult)) : List Job :=
  match cards with
  | none => []
  | some cs => (cs.take 10).filterMap extractCard

/-- `search_jobs_in_country`: builds the query URL and navigates; any
exception (navigation failure, `navOk = false`) is caught and `[]` is
returned, otherwise the result of `get_job_listings`. -/
def search_jobs_in_country (navOk : Bool) (cards : Option (List CardResult)) : List Job :=
  if navOk then get_job_listings cards else []

/-- States of the application attempt, named as in the spec's state
machine (`Discovered → Opened → FormHandled → Submitted / Failed`). -/
inductive AttemptState where
  | Discovered
  | Opened
  | FormHandled
  | Submitted
  | Failed
  deriving Repr, DecidableEq

/-- One row of the ledger, in the fixed nine-column layout built by
`log_application`. -/
structure Row where
  seq : Nat
  date : String
  title : String
  company : String
  country : String
  link : String
  salary : String
  status : String
  note : String
  deriving Repr, DecidableEq

/-- Observable side effects inside `apply_to_job`, in program order. -/
inductive Event where
  | navigate (url : String)
  | ledgerInvoked (row : Row)
  | ledgerAppended (row : Row)
  | counterIncremented (newCount : Nat)
  deriving Repr, DecidableEq

/-- One `send_keys("Automated")` call on a text input: succeeds or raises. -/
def try_send_keys (ok : Bool) : Except String Unit :=
  if ok then Except.ok () else Except.error "element not interactable"

/-- The loop body of `handle_application_form`: each input's `send_keys`
is wrapped in its own `try/except: pass`, so a failing input is skipped. -/
def fill_inputs : List Bool → Unit
  | [] => ()
  | ok :: rest =>
    match try_send_keys ok with
    | Except.ok _ => fill_inputs rest
    | Except.error _ => fill_inputs rest

/-- `handle_application_form`: the whole body sits in a `try/except: pass`;
`findInputsOk` models whether `find_elements` itself raises.  Either way
the function returns normally, so the result is always `Except.ok ()`. -/
def handle_application_form (findInputsOk : Bool) (inputs : List Bool) : Except String Unit :=
  if findInputsOk then Except.ok (fill_inputs inputs) else Except.ok ()

/-- The nine-element row assembled by `log_application`:
`[applications_count + 1, today, title, company, country, link,
f"$\x7bMIN_SALARY_USD\x7d+", status, "Automated"]`. -/
def mkRow (applications_count : Nat) (today title company country link status : String) : Row :=
  { seq := applications_count + 1
    date := today
    title := title
    company := company
    country := country
    link := link
    salary := "$" ++ toString MIN_SALARY_USD ++ "+"
    status := status
    note := "Automated" }

/-- Result of one `log_application` call: the row it built, the events it
performed, and the rows actually appended to the worksheet. -/
structure LogResult where
  row : Row
  events : List Event
  appended : List Row
  deriving Repr, DecidableEq

/-- `log_application`: builds the row from `applications_count + 1` and
calls `worksheet.append_row`; a raising append (`writeOk = false`) is
caught by the `except` and only logged, so the function always returns
normally and at most one row is appended. -/
def log_application (applications_count : Nat)
    (today title company country link status : String) (writeOk : Bool) : LogResult :=
  if writeOk then
    { row := mkRow applications_count today title company country link status
      events := [Event.ledgerInvoked (mkRow applications_count today title company country link status),
                 Event.ledgerAppended (mkRow applications_count today title company country link status)]
      appended := [mkRow applications_count today title company country link status] }
  else
    { row := mkRow applications_count today title company country link status
      events := [Event.ledgerInvoked (mkRow applications_count today title company country link status)]
      appended := [] }

/-- Oracle for one `apply_to_job` call: which of its page interactions
succeed. -/
structure ApplyEnv where
  navOk : Bool
  easyApplyFound : Bool
  findInputsOk : Bool
  formInputs : List Bool
  submitOk : Bool
  ledgerWriteOk : Bool
  deriving Repr, DecidableEq

/-- Result of one `apply_to_job` call: the Python return value
(`success`), the counter after the call, the rows passed to
`append_row` (`invoked`), the rows actually appended, the event trace,
and the attempt states visited. -/
structure ApplyResult where
  success : Bool
  newCount : Nat
  invoked : List Row
  appended : List Row
  events : List Event
  path : List AttemptState
  deriving Repr, DecidableEq

/-- `apply_to_job`: navigate to the posting, click Easy Apply, handle the
form, click Submit, then `log_application` and `applications_count += 1`
— any exception on the way is caught by the outer `except`, which prints
and returns `False` with no logging and no increment.  Program order of
the success path is kept in `events`: the ledger call (line 191) comes
before the increment (line 192). -/
def apply_to_job (applications_count : Nat) (today : String) (job : Job) (country : String)
    (env : ApplyEnv) : ApplyResult :=
  if env.navOk then
    if env.easyApplyFound then
      match handle_application_form env.findInputsOk env.formInputs with
      | Except.error _ =>
        { success := false, newCount := applications_count, invoked := [], appended := []
          events := [Event.navigate job.link]
          path := [AttemptState.Discovered, AttemptState.Opened, AttemptState.Failed] }
      | Except.ok _ =>
        if env.submitOk then
          { success := true
            newCount := applications_count + 1
            invoked := [(log_application applications_count today job.title job.company country job.link "Postulado" env.ledgerWriteOk).row]
            appended := (log_application applications_count today job.title job.company country job.link "Postulado" env.ledgerWriteOk).appended
            events := Event.navigate job.link ::
              (log_application applications_count today job.title job.company country job.link "Postulado" env.ledgerWriteOk).events ++
              [Event.counterIncremented (applications_count + 1)]
            path := [AttemptState.Discovered, AttemptState.Opened,
                     AttemptState.FormHandled, AttemptState.Submitted] }
        else
          { success := false, newCount := applications_count, invoked := [], appended := []
            events := [Event.navigate job.link]
            path := [AttemptState.Discovered, AttemptState.Opened,
                     AttemptState.FormHandled, AttemptState.Failed] }
    else
      { success := false, newCount := applications_count, invoked := [], appended := []
        events := [Event.navigate job.link]
        path := [AttemptState.Discovered, AttemptState.Opened, AttemptState.Failed] }
  else
    { success := false, newCount := applications_count, invoked := [], appended := []
      events := [Event.navigate job.link]
      path := [AttemptState.Discovered, AttemptState.Failed] }

/-- Record of one attempt made by the run loop: the posting, the quota
counter before the call, the oracle used, and the call's result. -/
structure AttemptRecord where
  job : Job
  country : String
  countBefore : Nat
  env : ApplyEnv
  result : ApplyResult
  deriving Repr, DecidableEq

/-- Mutable state of the run loop: `self.applications_count`, the
worksheet contents, and the attempts made so far. -/
structure RunState where
  count : Nat
  ledger : List Row
  attempts : List AttemptRecord
  deriving Repr, DecidableEq

/-- State at the start of `run`. -/
def initState : RunState := { count := 0, ledger := [], attempts := [] }

/-- Oracle used when the environment supplies fewer per-job oracles than
there are jobs: every interaction fails. -/
def defaultApplyEnv : ApplyEnv :=
  { navOk := false, easyApplyFound := false, findInputsOk := false
    formInputs := [], submitOk := false, ledgerWriteOk := false }

/-- Effect of one inner-loop iteration on the run state. -/
def stepState (today country : String) (job : Job) (env : ApplyEnv) (st : RunState) : RunState :=
  { count := (apply_to_job st.count today job country env).newCount
    ledger := st.ledger ++ (apply_to_job st.count today job country env).appended
    attempts := st.attempts ++
      [{ job := job, country := country, countBefore := st.count, env := env
         result := apply_to_job st.count today job country env }] }

/-- The inner loop of `run`: `for job in jobs`, with the quota check
`if self.applications_count >= MAX_APPLICATIONS_PER_DAY: break` at the
top of each iteration, before the attempt. -/
def processJobs (cap : Nat) (today country : String) :
    List Job → List ApplyEnv → RunState → RunState
  | [], _, st => st
  | job :: rest, envs, st =>
    if cap ≤ st.count then st
    else
      processJobs cap today country rest envs.tail
        (stepState today country job (envs.headD defaultApplyEnv) st)

/-- Oracle for one country iteration: whether the search navigation
succeeds, the cards the listing page shows (`none` = timeout), and the
per-job oracles. -/
structure CountryEnv where
  searchNavOk : Bool
  cards : Option (List CardResult)
  applyEnvs : List ApplyEnv
  deriving Repr, DecidableEq

/-- Country oracle used when the environment list runs short: the wait
for listings times out, so the country yields no jobs. -/
def defaultCountryEnv : CountryEnv :=
  { searchNavOk := true, cards := none, applyEnvs := [] }

/-- The outer loop of `run`: `for country in TARGET_COUNTRIES`, with the
quota check at the top of each iteration, before the discovery call. -/
def processCountries (cap : Nat) (today : String) :
    List String → List CountryEnv → RunState → RunState
  | [], _, st => st
  | country :: rest, envs, st =>
    if cap ≤ st.count then st
    else
      processCountries cap today rest envs.tail
        (processJobs cap today country
          (search_jobs_in_country (envs.headD defaultCountryEnv).searchNavOk
            (envs.headD defaultCountryEnv).cards)
          (envs.headD defaultCountryEnv).applyEnvs st)

/-- Python truthiness of `os.environ.get(...)`: set and non-empty.  The
guard in the code is `if not all([li_at, jsessionid, lidc])`. -/
def envTruthy : Option String → Bool
  | none => false
  | some s => !s.isEmpty

/-- Oracle for `authenticate_linkedin_with_cookies`: the three cookie
environment variables, whether the feed page loads, and whether the
post-login landmark (`/mynetwork/` link) appears within the wait. -/
structure AuthEnv where
  li_at : Option String
  jsessionid : Option String
  lidc : Option String
  pageLoadOk : Bool
  verifyOk : Bool
  deriving Repr, DecidableEq

/-- Driver interactions performed during authentication. -/
inductive AuthEvent where
  | navigate (url : String)
  | addCookie (name : String)
  | refresh
  deriving Repr, DecidableEq

/-- The `ValueError` message raised when a cookie is missing (the spec's
`ConfigurationError`). -/
def cookiesMissingMsg : String :=
  "Missing LinkedIn cookies (LINKEDIN_LI_AT, LINKEDIN_JSESSIONID, LINKEDIN_LIDC)"

/-- `authenticate_linkedin_with_cookies`: reads the three cookie values
first and raises before touching the driver when any is missing; only
then navigates to the feed, installs the cookies, refreshes, and waits
for the landmark, raising on verification failure.  The outer `except`
prints and re-raises, so every failure propagates. -/
def authenticate_linkedin_with_cookies (env : AuthEnv) :
    Except String Unit × List AuthEvent :=
  if envTruthy env.li_at && envTruthy env.jsessionid && envTruthy env.lidc then
    if env.pageLoadOk then
      if env.verifyOk then
        (Except.ok (),
         [AuthEvent.navigate "https://www.linkedin.com/feed/",
          AuthEvent.addCookie "li_at", AuthEvent.addCookie "JSESSIONID",
          AuthEvent.addCookie "lidc", AuthEvent.refresh])
      else
        (Except.error "Authentication verification failed",
         [AuthEvent.navigate "https://www.linkedin.com/feed/",
          AuthEvent.addCookie "li_at", AuthEvent.addCookie "JSESSIONID",
          AuthEvent.addCookie "lidc", AuthEvent.refresh])
    else
      (Except.error "page load failed",
       [AuthEvent.navigate "https://www.linkedin.com/feed/"])
  else
    (Except.error cookiesMissingMsg, [])

/-- The `ValueError` message of `setup_google_sheets` (the other
configuration failure that aborts the run). -/
def sheetsMissingMsg : String :=
  "Missing GOOGLE_SHEETS_CREDS or GOOGLE_SHEET_ID environment variables"

/-- Oracle for one whole run.  `cap` is `MAX_APPLICATIONS_PER_DAY`, drawn
once per process from `random.randint(20, 30)` and immutable afterwards;
the theorems quantify over it.  Driver construction
(`initialize_driver`) instantiates the external collaborator and is
modelled as infallible. -/
structure RunEnv where
  sheetsOk : Bool
  auth : AuthEnv
  countryEnvs : List CountryEnv
  cap : Nat
  today : String
  deriving Repr, DecidableEq

/-- Outcome of `run()`: the exception, if any, that reached the
top-level `except` (where it is printed, after which the process exits
normally), and the final loop state. -/
structure RunResult where
  fatalError : Option String
  final : RunState
  deriving Repr, DecidableEq

/-- `run`: driver setup, sheets setup, authentication, then the
country/job loop.  The whole body is inside `try/except` + `finally`, so
an exception from sheets setup or from authentication lands in
`fatalError` and the loop never starts; the loop body itself never
raises. -/
def run (env : RunEnv) : RunResult :=
  if env.sheetsOk = false then
    { fatalError := some sheetsMissingMsg, final := initState }
  else
    match (authenticate_linkedin_with_cookies env.auth).1 with
    | Except.error e => { fatalError := some e, final := initState }
    | Except.ok _ =>
      { fatalError := none
        final := processCountries env.cap env.today TARGET_COUNTRIES env.countryEnvs initState }

/-- Per-run total of discoverable postings: the summed lengths of the
search results of each country, pairing countries with their oracles the
same way the loop does. -/
def totalDiscovered : List String → List CountryEnv → Nat
  | [], _ => 0
  | _ :: rest, envs =>
    (search_jobs_in_country (envs.headD defaultCountryEnv).searchNavOk
      (envs.headD defaultCountryEnv).cards).length + totalDiscovered rest envs.tail

/-- Attempt records created by the run loop: the quota was checked first
(`countBefore < cap`) and the result is exactly `apply_to_job` at the
recorded inputs. -/
def goodAttempt (cap : Nat) (today : String) (a : AttemptRecord) : Prop :=
  a.countBefore < cap ∧
  a.result = apply_to_job a.countBefore today a.job a.country a.env

/-- The three ledger columns that `log_application` fills with constants. -/
def constRow (r : Row) : Prop :=
  r.salary = "$500+" ∧ r.status = "Postulado" ∧ r.note = "Automated"

/-- Recognizes the `applications_count += 1` event. -/
def isIncrementEvent : Event → Bool
  | Event.counterIncremented _ => true
  | _ => false

/-- Recognizes the call into `log_application` / `append_row`. -/
def isLedgerInvokeEvent : Event → Bool
  | Event.ledgerInvoked _ => true
  | _ => false

/-- The ordering asserted by the spec: the counter increment happens
before the Ledger Writer is invoked. -/
def incrementBeforeLedger (evs : List Event) : Prop :=
  evs.findIdx isIncrementEvent < evs.findIdx isLedgerInvokeEvent

/-- The ordering the code actually implements: `log_application` on
line 191 runs before `self.applications_count += 1` on line 192. -/
def ledgerBeforeIncrement (evs : List Event) : Prop :=
  evs.findIdx isLedgerInvokeEvent < evs.findIdx isIncrementEvent

/-! ### Concrete fixtures used by witnesses and counterexamples -/

/-- A posting that will fail for lack of an Easy Apply control. -/
def jobA : Job := { title := "Dev A", company := "Acme", link := "https://jobs.example/a" }

/-- A posting that will be submitted and logged. -/
def jobB : Job := { title := "Dev B", company := "Beta", link := "https://jobs.example/b" }

/-- A posting that will be submitted but whose ledger append fails. -/
def jobC : Job := { title := "Dev C", company := "Gamma", link := "https://jobs.example/c" }

/-- Oracle: page loads but the Easy Apply button never appears. -/
def applyEnvNoEasyApply : ApplyEnv :=
  { navOk := true, easyApplyFound := false, findInputsOk := true
    formInputs := [], submitOk := false, ledgerWriteOk := true }

/-- Oracle: every interaction succeeds (one form input rejects keys,
which the form handler swallows). -/
def applyEnvAllOk : ApplyEnv :=
  { navOk := true, easyApplyFound := true, findInputsOk := true
    formInputs := [true, false], submitOk := true, ledgerWriteOk := true }

/-- Oracle: submission succeeds but `append_row` raises. -/
def applyEnvNoLedger : ApplyEnv :=
  { navOk := true, easyApplyFound := true, findInputsOk := true
    formInputs := [true], submitOk := true, ledgerWriteOk := false }

/-- All three cookies set, verification succeeds. -/
def authEnvOk : AuthEnv :=
  { li_at := some "tokA", jsessionid := some "tokB", lidc := some "tokC"
    pageLoadOk := true, verifyOk := true }

/-- The cookie triple with `LINKEDIN_JSESSIONID` unset. -/
def authEnvMissing : AuthEnv :=
  { li_at := some "tokA", jsessionid := none, lidc := some "tokC"
    pageLoadOk := true, verifyOk := true }

/-- First country: four cards, one unreadable, three postings; the first
attempt fails, the second succeeds, the third succeeds with a failing
ledger append. -/
def countryEnvA : CountryEnv :=
  { searchNavOk := true
    cards := some [CardResult.ok jobA, CardResult.extractFailure,
                   CardResult.ok jobB, CardResult.ok jobC]
    applyEnvs := [applyEnvNoEasyApply, applyEnvAllOk, applyEnvNoLedger] }

/-- A full-run oracle: sheets and authentication succeed, one productive
country, cap 5; the remaining countries time out on discovery. -/
def runEnvA : RunEnv :=
  { sheetsOk := true, auth := authEnvOk, countryEnvs := [countryEnvA]
    cap := 5, today := "01/01/2026" }

/-- A full-run oracle whose cookie triple is incomplete. -/
def runEnvFatal : RunEnv :=
  { sheetsOk := true, auth := authEnvMissing, countryEnvs := [countryEnvA]
    cap := 5, today := "01/01/2026" }

/-- Placeholder attempt used as `getD` default when indexing fixtures. -/
def dummyAttempt : AttemptRecord :=
  { job := jobA, country := "Argentina", countBefore := 0, env := defaultApplyEnv
    result := apply_to_job 0 "01/01/2026" jobA "Argentina" defaultApplyEnv }

/-- Placeholder row used as `getD` default when indexing fixtures. -/
def dummyRow : Row := mkRow 0 "01/01/2026" "t" "c" "Argentina" "l" "Postulado"

instance (evs : List Event) : Decidable (incrementBeforeLedger evs) :=
  Nat.decLt _ _

instance (evs : List Event) : Decidable (ledgerBeforeIncrement evs) :=
  Nat.decLt _ _

/-- The failed attempt of `runEnvA` (no Easy Apply control on `jobA`). -/
def attemptA : AttemptRecord := ((run runEnvA).final.attempts).getD 0 dummyAttempt

/-- The successful, logged attempt of `runEnvA` (`jobB`). -/
def attemptB : AttemptRecord := ((run runEnvA).final.attempts).getD 1 dummyAttempt

/-- The successful attempt of `runEnvA` whose ledger append failed (`jobC`). -/
def attemptC : AttemptRecord := ((run runEnvA).final.attempts).getD 2 dummyAttempt

/-- The single row `runEnvA` appends to the worksheet. -/
def rowB : Row := ((run runEnvA).final.ledger).getD 0 dummyRow

/-! ### Lemmas about the single operations -/

theorem handle_application_form_ok (b : Bool) (l : List Bool) :
    handle_application_form b l = Except.ok () := by
  cases b <;> rfl

theorem apply_success_iff (c : Nat) (t : String) (j : Job) (co : String) (e : ApplyEnv) :
    (apply_to_job c t j co e).success = (e.navOk && e.easyApplyFound && e.submitOk) := by
  obtain ⟨nav, ea, fi, ins, sub, lw⟩ := e
  cases nav <;> cases ea <;> cases sub <;>
    simp [apply_to_job, handle_application_form_ok]

theorem apply_newCount_eq (c : Nat) (t : String) (j : Job) (co : String) (e : ApplyEnv) :
    (apply_to_job c t j co e).newCount =
      if (apply_to_job c t j co e).success then c + 1 else c := by
  obtain ⟨nav, ea, fi, ins, sub, lw⟩ := e
  cases nav <;> cases ea <;> cases sub <;>
    simp [apply_to_job, handle_application_form_ok]

theorem apply_invoked_eq (c : Nat) (t : String) (j : Job) (co : String) (e : ApplyEnv) :
    (apply_to_job c t j co e).invoked =
      if (apply_to_job c t j co e).success then
        [mkRow c t j.title j.company co j.link "Postulado"]
      else [] := by
  obtain ⟨nav, ea, fi, ins, sub, lw⟩ := e
  cases nav <;> cases ea <;> cases sub <;> cases lw <;>
    simp [apply_to_job, handle_application_form_ok, log_application]

theorem apply_appended_eq (c : Nat) (t : String) (j : Job) (co : String) (e : ApplyEnv) :
    (apply_to_job c t j co e).appended =
      if ((apply_to_job c t j co e).success && e.ledgerWriteOk) then
        [mkRow c t j.title j.company co j.link "Postulado"]
      else [] := by
  obtain ⟨nav, ea, fi, ins, sub, lw⟩ := e
  cases nav <;> cases ea <;> cases sub <;> cases lw <;>
    simp [apply_to_job, handle_application_form_ok, log_application]

theorem apply_newCount_le (c : Nat) (t : String) (j : Job) (co : String) (e : ApplyEnv) :
    (apply_to_job c t j co e).newCount ≤ c + 1 := by
  rw [apply_newCount_eq]
  split <;> omega

theorem apply_newCount_ge (c : Nat) (t : String) (j : Job) (co : String) (e : ApplyEnv) :
    c ≤ (apply_to_job c t j co e).newCount := by
  rw [apply_newCount_eq]
  split <;> omega

theorem apply_events_order (c : Nat) (t : String) (j : Job) (co : String) (e : ApplyEnv)
    (h : (apply_to_job c t j co e).success = true) :
    ledgerBeforeIncrement (apply_to_job c t j co e).events := by
  obtain ⟨nav, ea, fi, ins, sub, lw⟩ := e
  cases nav <;> cases ea <;> cases sub <;> cases lw <;>
    simp_all [apply_to_job, handle_application_form_ok, log_application,
      ledgerBeforeIncrement, isIncrementEvent, isLedgerInvokeEvent, List.findIdx_cons]

theorem apply_no_easy_apply (c : Nat) (t : String) (j : Job) (co : String) (e : ApplyEnv)
    (h1 : e.navOk = true) (h2 : e.easyApplyFound = false) :
    (apply_to_job c t j co e).success = false ∧
    (apply_to_job c t j co e).path =
      [AttemptState.Discovered, AttemptState.Opened, AttemptState.Failed] := by
  obtain ⟨nav, ea, fi, ins, sub, lw⟩ := e
  simp only at h1 h2
  subst h1; subst h2
  simp [apply_to_job]

theorem mkRow_const (c : Nat) (t ti comp co li : String) :
    constRow (mkRow c t ti comp co li "Postulado") := by
  refine ⟨?_, rfl, rfl⟩
  rfl

/-! ### Invariant preservation through the run loop -/

theorem processJobs_inv (cap : Nat) (today country : String) (jobs : List Job)
    (envs : List ApplyEnv) (st : RunState)
    (hc : st.count ≤ cap)
    (ha : ∀ a ∈ st.attempts, goodAttempt cap today a)
    (hl : ∀ r ∈ st.ledger, constRow r) :
    (processJobs cap today country jobs envs st).count ≤ cap ∧
    (∀ a ∈ (processJobs cap today country jobs envs st).attempts, goodAttempt cap today a) ∧
    (∀ r ∈ (processJobs cap today country jobs envs st).ledger, constRow r) := by
  induction jobs generalizing envs st with
  | nil =>
    simp only [processJobs]
    exact ⟨hc, ha, hl⟩
  | cons j rest ih =>
    by_cases h : cap ≤ st.count
    · simp only [processJobs, if_pos h]
      exact ⟨hc, ha, hl⟩
    · simp only [processJobs, if_neg h]
      apply ih
      · have := apply_newCount_le st.count today j country (envs.headD defaultApplyEnv)
        simp only [stepState]
        omega
      · intro a hmem
        simp only [stepState, List.mem_append, List.mem_singleton] at hmem
        rcases hmem with hmem | hmem
        · exact ha a hmem
        · subst hmem
          exact ⟨(by omega : st.count < cap), rfl⟩
      · intro r hmem
        simp only [stepState, List.mem_append] at hmem
        rcases hmem with hmem | hmem
        · exact hl r hmem
        · rw [apply_appended_eq] at hmem
          split at hmem
          · simp only [List.mem_singleton] at hmem
            subst hmem
            exact mkRow_const _ _ _ _ _ _
          · simp at hmem

theorem processJobs_count_mono (cap : Nat) (today country : String) (jobs : List Job)
    (envs : List ApplyEnv) (st : RunState) :
    st.count ≤ (processJobs cap today country jobs envs st).count := by
  induction jobs generalizing envs st with
  | nil => simp only [processJobs]; omega
  | cons j rest ih =>
    by_cases h : cap ≤ st.count
    · simp only [processJobs, if_pos h]; omega
    · simp only [processJobs, if_neg h]
      have h1 := apply_newCount_ge st.count today j country (envs.headD defaultApplyEnv)
      have h2 := ih envs.tail (stepState today country j (envs.headD defaultApplyEnv) st)
      have h3 : (stepState today country j (envs.headD defaultApplyEnv) st).count =
          (apply_to_job st.count today j country (envs.headD defaultApplyEnv)).newCount := rfl
      omega

theorem processJobs_length (cap : Nat) (today country : String) (jobs : List Job)
    (envs : List ApplyEnv) (st : RunState)
    (h : (processJobs cap today country jobs envs st).count < cap) :
    (processJobs cap today country jobs envs st).attempts.length =
      st.attempts.length + jobs.length := by
  induction jobs generalizing envs st with
  | nil => simp only [processJobs, List.length_nil]; omega
  | cons j rest ih =>
    by_cases hc : cap ≤ st.count
    · simp only [processJobs, if_pos hc] at h ⊢
      omega
    · simp only [processJobs, if_neg hc] at h ⊢
      have hrec := ih envs.tail (stepState today country j (envs.headD defaultApplyEnv) st) h
      have hlen : (stepState today country j (envs.headD defaultApplyEnv) st).attempts.length =
          st.attempts.length + 1 := by
        simp [stepState]
      simp only [List.length_cons]
      omega

theorem processCountries_inv (cap : Nat) (today : String) (countries : List String)
    (envs : List CountryEnv) (st : RunState)
    (hc : st.count ≤ cap)
    (ha : ∀ a ∈ st.attempts, goodAttempt cap today a)
    (hl : ∀ r ∈ st.ledger, constRow r) :
    (processCountries cap today countries envs st).count ≤ cap ∧
    (∀ a ∈ (processCountries cap today countries envs st).attempts, goodAttempt cap today a) ∧
    (∀ r ∈ (processCountries cap today countries envs st).ledger, constRow r) := by
  induction countries generalizing envs st with
  | nil =>
    simp only [processCountries]
    exact ⟨hc, ha, hl⟩
  | cons c rest ih =>
    by_cases h : cap ≤ st.count
    · simp only [processCountries, if_pos h]
      exact ⟨hc, ha, hl⟩
    · simp only [processCountries, if_neg h]
      have inner := processJobs_inv cap today c
        (search_jobs_in_country (envs.headD defaultCountryEnv).searchNavOk
          (envs.headD defaultCountryEnv).cards)
        (envs.headD defaultCountryEnv).applyEnvs st hc ha hl
      exact ih envs.tail _ inner.1 inner.2.1 inner.2.2

theorem processCountries_count_mono (cap : Nat) (today : String) (countries : List String)
    (envs : List CountryEnv) (st : RunState) :
    st.count ≤ (processCountries cap today countries envs st).count := by
  induction countries generalizing envs st with
  | nil => simp only [processCountries]; omega
  | cons c rest ih =>
    by_cases h : cap ≤ st.count
    · simp only [processCountries, if_pos h]; omega
    · simp only [processCountries, if_neg h]
      have h1 := processJobs_count_mono cap today c
        (search_jobs_in_country (envs.headD defaultCountryEnv).searchNavOk
          (envs.headD defaultCountryEnv).cards)
        (envs.headD defaultCountryEnv).applyEnvs st
      have h2 := ih envs.tail
        (processJobs cap today c
          (search_jobs_in_country (envs.headD defaultCountryEnv).searchNavOk
            (envs.headD defaultCountryEnv).cards)
          (envs.headD defaultCountryEnv).applyEnvs st)
      omega

theorem processCountries_length (cap : Nat) (today : String) (countries : List String)
    (envs : List CountryEnv) (st : RunState)
    (h : (processCountries cap today countries envs st).count < cap) :
    (processCountries cap today countries envs st).attempts.length =
      st.attempts.length + totalDiscovered countries envs := by
  induction countries generalizing envs st with
  | nil => simp only [processCountries, totalDiscovered]; omega
  | cons c rest ih =>
    by_cases hc : cap ≤ st.count
    · simp only [processCountries, if_pos hc] at h ⊢
      omega
    · simp only [processCountries, if_neg hc] at h ⊢
      have hmono := processCountries_count_mono cap today rest envs.tail
        (processJobs cap today c
          (search_jobs_in_country (envs.headD defaultCountryEnv).searchNavOk
            (envs.headD defaultCountryEnv).cards)
          (envs.headD defaultCountryEnv).applyEnvs st)
      have hinner := processJobs_length cap today c
        (search_jobs_in_country (envs.headD defaultCountryEnv).searchNavOk
          (envs.headD defaultCountryEnv).cards)
        (envs.headD defaultCountryEnv).applyEnvs st (by omega)
      have houter := ih envs.tail
        (processJobs cap today c
          (search_jobs_in_country (envs.headD defaultCountryEnv).searchNavOk
            (envs.headD defaultCountryEnv).cards)
          (envs.headD defaultCountryEnv).applyEnvs st) h
      simp only [totalDiscovered]
      omega

theorem run_inv (env : RunEnv) :
    (run env).final.count ≤ env.cap ∧
    (∀ a ∈ (run env).final.attempts, goodAttempt env.cap env.today a) ∧
    (∀ r ∈ (run env).final.ledger, constRow r) := by
  unfold run
  split
  · exact ⟨Nat.zero_le _, by simp [initState], by simp [initState]⟩
  · split
    · exact ⟨Nat.zero_le _, by simp [initState], by simp [initState]⟩
    · exact processCountries_inv env.cap env.today TARGET_COUNTRIES env.countryEnvs initState
        (Nat.zero_le _) (by simp [initState]) (by simp [initState])

/-- Reduction of `run` when neither setup nor authentication fails: the
final state is the country loop started from the initial state. -/
theorem run_final_eq (env : RunEnv) (h : (run env).fatalError = none) :
    (run env).final =
      processCountries env.cap env.today TARGET_COUNTRIES env.countryEnvs initState := by
  by_cases hs : env.sheetsOk = false
  · exact absurd h (by simp [run, hs])
  · cases hauth : (authenticate_linkedin_with_cookies env.auth).1 with
    | error e => exact absurd h (by simp [run, hs, hauth])
    | ok u => simp [run, hs, hauth]

/-! ### Claim theorems -/

/-- C1: throughout every run, the successful-application counter stays at
or below the run's daily cap: the final count is at most the cap, the
orchestrator's quota checks before each region and before each posting
ensure every attempt starts with the counter strictly below the cap (so
with a cap of 25 a 26th application is never attempted), and no single
attempt pushes the counter past the cap. -/
theorem quota_never_exceeds_cap (env : RunEnv) :
    (run env).final.count ≤ env.cap ∧
    ∀ a ∈ (run env).final.attempts,
      a.countBefore < env.cap ∧ a.result.newCount ≤ env.cap := by
  obtain ⟨hc, ha, -⟩ := run_inv env
  refine ⟨hc, ?_⟩
  intro a hmem
  obtain ⟨hlt, heq⟩ := ha a hmem
  refine ⟨hlt, ?_⟩
  have hle := apply_newCount_le a.countBefore env.today a.job a.country a.env
  rw [heq]
  omega

theorem quota_never_exceeds_cap_witness :
    (run runEnvA).final.count ≤ runEnvA.cap ∧ attemptB.countBefore < runEnvA.cap :=
  ⟨(quota_never_exceeds_cap runEnvA).1,
   ((quota_never_exceeds_cap runEnvA).2 attemptB (by decide)).1⟩

/-- C2: every attempt that reaches Submitted hands exactly one row, with
the posting's title, company and link, to the Ledger Writer, and when the
underlying append succeeds that one row is exactly what lands in the
ledger; every terminal attempt (Submitted or Failed) contributes at most
one ledger row. -/
theorem submitted_logs_exactly_once (env : RunEnv) :
    ∀ a ∈ (run env).final.attempts,
      (a.result.success = true →
        a.result.invoked.length = 1 ∧
        ∀ r ∈ a.result.invoked,
          r.title = a.job.title ∧ r.company = a.job.company ∧ r.link = a.job.link) ∧
      (a.result.success = true → a.env.ledgerWriteOk = true →
        a.result.appended = a.result.invoked) ∧
      a.result.invoked.length ≤ 1 ∧ a.result.appended.length ≤ 1 := by
  intro a hmem
  obtain ⟨-, ha, -⟩ := run_inv env
  obtain ⟨-, heq⟩ := ha a hmem
  rw [heq, apply_invoked_eq, apply_appended_eq]
  cases hs : (apply_to_job a.countBefore env.today a.job a.country a.env).success with
  | false => simp [hs]
  | true =>
    cases hw : a.env.ledgerWriteOk with
    | false => simp [hs, hw, mkRow]
    | true => simp [hs, hw, mkRow]

theorem submitted_logs_exactly_once_witness :
    attemptB.result.invoked.length = 1 ∧
    attemptB.result.appended = attemptB.result.invoked := by
  have h := submitted_logs_exactly_once runEnvA attemptB (by decide)
  exact ⟨(h.1 (by decide)).1, h.2.1 (by decide) (by decide)⟩

/-- C3 counterexample: in the concrete run `runEnvA`, the successful
attempt's event trace performs the Ledger Writer call strictly before the
counter increment, refuting the claim that the increment happens first. -/
theorem increment_before_ledger_refuted :
    ¬ (∀ env : RunEnv, ∀ a ∈ (run env).final.attempts,
        a.result.success = true → incrementBeforeLedger a.result.events) := by
  intro h
  exact absurd (h runEnvA attemptB (by decide) (by decide)) (by decide)

/-- C3 amended: for every attempt with a Submitted outcome the Ledger
Writer is invoked before the applied-count increment (`log_application`
on line 191 runs before `applications_count += 1` on line 192), and the
row it receives carries the sequence number `applications_count + 1`
computed from the pre-increment counter. -/
theorem ledger_invoked_before_increment (env : RunEnv) :
    ∀ a ∈ (run env).final.attempts, a.result.success = true →
      ledgerBeforeIncrement a.result.events ∧
      ∀ r ∈ a.result.invoked, r.seq = a.countBefore + 1 := by
  intro a hmem hs
  obtain ⟨-, ha, -⟩ := run_inv env
  obtain ⟨-, heq⟩ := ha a hmem
  rw [heq] at hs ⊢
  refine ⟨apply_events_order _ _ _ _ _ hs, ?_⟩
  rw [apply_invoked_eq]
  simp only [hs, if_true]
  intro r hr
  simp only [List.mem_singleton] at hr
  subst hr
  rfl

theorem ledger_invoked_before_increment_witness :
    ledgerBeforeIncrement attemptB.result.events :=
  (ledger_invoked_before_increment runEnvA attemptB (by decide) (by decide)).1

/-- C4: discovery is total and bounded: it returns at most ten postings
per region, returns the empty list when the listings wait times out (or
navigation fails), and a listing whose fields cannot be read is skipped
without losing the readable listings around it. -/
theorem discovery_bounded_and_total (navOk : Bool) (cards : Option (List CardResult)) :
    (search_jobs_in_country navOk cards).length ≤ 10 ∧
    (cards = none → search_jobs_in_country navOk cards = []) ∧
    (navOk = true → ∀ cs, cards = some cs →
      ∀ j, CardResult.ok j ∈ cs.take 10 → j ∈ search_jobs_in_country navOk cards) := by
  refine ⟨?_, ?_, ?_⟩
  · cases navOk with
    | false => simp [search_jobs_in_country]
    | true =>
      cases cards with
      | none => simp [search_jobs_in_country, get_job_listings]
      | some cs =>
        show ((cs.take 10).filterMap extractCard).length ≤ 10
        exact le_trans (List.length_filterMap_le _ _) (List.length_take_le _ _)
  · intro hnone
    subst hnone
    cases navOk <;> simp [search_jobs_in_country, get_job_listings]
  · intro hnav cs hcs j hj
    subst hnav
    subst hcs
    show j ∈ (cs.take 10).filterMap extractCard
    exact List.mem_filterMap.mpr ⟨CardResult.ok j, hj, rfl⟩

theorem discovery_bounded_and_total_witness :
    jobB ∈ search_jobs_in_country true
      (some [CardResult.ok jobA, CardResult.extractFailure, CardResult.ok jobB]) :=
  (discovery_bounded_and_total true
      (some [CardResult.ok jobA, CardResult.extractFailure, CardResult.ok jobB])).2.2
    rfl [CardResult.ok jobA, CardResult.extractFailure, CardResult.ok jobB] rfl jobB (by decide)

/-- C5: an attempt with a Failed outcome leaves the counter unchanged and
writes nothing to the ledger; a posting with no Easy Apply control
follows Discovered → Opened → Failed; and failures never stop the loop:
whenever the run completes its loop with the quota never reached, every
discovered posting of the run was attempted. -/
theorem failed_attempt_no_count_no_row (env : RunEnv) :
    (∀ a ∈ (run env).final.attempts, a.result.success = false →
      a.result.newCount = a.countBefore ∧
      a.result.invoked = [] ∧ a.result.appended = []) ∧
    (∀ a ∈ (run env).final.attempts,
      a.env.navOk = true → a.env.easyApplyFound = false →
      a.result.success = false ∧
      a.result.path = [AttemptState.Discovered, AttemptState.Opened, AttemptState.Failed]) ∧
    ((run env).fatalError = none → (run env).final.count < env.cap →
      (run env).final.attempts.length = totalDiscovered TARGET_COUNTRIES env.countryEnvs) := by
  obtain ⟨-, ha, -⟩ := run_inv env
  refine ⟨?_, ?_, ?_⟩
  · intro a hmem hs
    obtain ⟨-, heq⟩ := ha a hmem
    rw [heq] at hs ⊢
    rw [apply_newCount_eq, apply_invoked_eq, apply_appended_eq]
    simp [hs]
  · intro a hmem h1 h2
    obtain ⟨-, heq⟩ := ha a hmem
    rw [heq]
    exact apply_no_easy_apply a.countBefore env.today a.job a.country a.env h1 h2
  · intro hfatal hcount
    rw [run_final_eq env hfatal] at hcount ⊢
    have hlen := processCountries_length env.cap env.today TARGET_COUNTRIES
      env.countryEnvs initState hcount
    simpa [initState] using hlen

theorem failed_attempt_no_count_no_row_witness :
    attemptA.result.newCount = attemptA.countBefore ∧
    attemptA.result.path = [AttemptState.Discovered, AttemptState.Opened, AttemptState.Failed] ∧
    (run runEnvA).final.attempts.length = totalDiscovered TARGET_COUNTRIES runEnvA.countryEnvs := by
  refine ⟨?_, ?_, ?_⟩
  · exact ((failed_attempt_no_count_no_row runEnvA).1 attemptA (by decide) (by decide)).1
  · exact ((failed_attempt_no_count_no_row runEnvA).2.1 attemptA (by decide) (by decide) (by decide)).2
  · exact (failed_attempt_no_count_no_row runEnvA).2.2 (by decide) (by decide)

/-- C6: when any of the three cookie environment variables is missing (or
empty, Python truthiness), authentication fails with the configuration
error before any driver interaction: the event list is empty, so the
browser was never instructed to load a page in that call. -/
theorem missing_cookie_fails_before_navigation (env : AuthEnv)
    (h : envTruthy env.li_at = false ∨ envTruthy env.jsessionid = false ∨
      envTruthy env.lidc = false) :
    (authenticate_linkedin_with_cookies env).1 = Except.error cookiesMissingMsg ∧
    (authenticate_linkedin_with_cookies env).2 = [] := by
  unfold authenticate_linkedin_with_cookies
  rcases h with h | h | h <;> simp [h]

theorem missing_cookie_fails_before_navigation_witness :
    (authenticate_linkedin_with_cookies authEnvMissing).1 = Except.error cookiesMissingMsg ∧
    (authenticate_linkedin_with_cookies authEnvMissing).2 = [] :=
  missing_cookie_fails_before_navigation authEnvMissing (by decide)

/-- C7: a failing ledger append is non-fatal: `log_application` swallows
the exception, a Submitted attempt whose append failed still increments
the in-memory counter (with its single Ledger Writer call recorded and no
row landing), and the attempt's outcome and counter are identical to what
a succeeding append would have produced, so the run continues the same
way. -/
theorem ledger_write_failure_nonfatal (env : RunEnv) :
    (∀ a ∈ (run env).final.attempts,
      a.env.ledgerWriteOk = false → a.result.success = true →
        a.result.newCount = a.countBefore + 1 ∧
        a.result.appended = [] ∧ a.result.invoked.length = 1) ∧
    (∀ (c : Nat) (t : String) (j : Job) (co : String) (e : ApplyEnv) (b : Bool),
      (apply_to_job c t j co { e with ledgerWriteOk := b }).success =
        (apply_to_job c t j co e).success ∧
      (apply_to_job c t j co { e with ledgerWriteOk := b }).newCount =
        (apply_to_job c t j co e).newCount) := by
  constructor
  · intro a hmem hw hs
    obtain ⟨-, ha, -⟩ := run_inv env
    obtain ⟨-, heq⟩ := ha a hmem
    rw [heq] at hs ⊢
    rw [apply_newCount_eq, apply_invoked_eq, apply_appended_eq]
    simp [hs, hw]
  · intro c t j co e b
    constructor
    · rw [apply_success_iff, apply_success_iff]
    · rw [apply_newCount_eq, apply_newCount_eq, apply_success_iff, apply_success_iff]

theorem ledger_write_failure_nonfatal_witness :
    attemptC.result.newCount = attemptC.countBefore + 1 ∧
    attemptC.result.appended = [] := by
  have h := (ledger_write_failure_nonfatal runEnvA).1 attemptC (by decide) (by decide) (by decide)
  exact ⟨h.1, h.2.1⟩

/-- C8: only a Google-Sheets-setup failure or an authentication failure
aborts the run: the top level finishes without a fatal error exactly when
both succeed — regardless of any discovery, application or ledger
failures in the regions — and when a fatal error does propagate the loop
never starts (the error is printed and `run` still returns, i.e. the
process exits normally). -/
theorem only_setup_or_auth_aborts (env : RunEnv) :
    ((run env).fatalError = none ↔
      env.sheetsOk = true ∧
        (authenticate_linkedin_with_cookies env.auth).1 = Except.ok ()) ∧
    ((run env).fatalError.isSome = true → (run env).final = initState) := by
  constructor
  · constructor
    · intro h
      by_cases hs : env.sheetsOk = false
      · exact absurd h (by simp [run, hs])
      · cases hauth : (authenticate_linkedin_with_cookies env.auth).1 with
        | error e => exact absurd h (by simp [run, hs, hauth])
        | ok u =>
          refine ⟨?_, rfl⟩
          revert hs
          cases env.sheetsOk <;> simp
    · rintro ⟨hs, hauth⟩
      simp [run, hs, hauth]
  · intro h
    by_cases hs : env.sheetsOk = false
    · simp [run, hs]
    · cases hauth : (authenticate_linkedin_with_cookies env.auth).1 with
      | error e => simp [run, hs, hauth]
      | ok u => exact absurd h (by simp [run, hs, hauth])

theorem only_setup_or_auth_aborts_witness :
    (run runEnvFatal).final = initState :=
  (only_setup_or_auth_aborts runEnvFatal).2 (by decide)

/-- C9: the form-handling step is total and inert: it always returns
normally, and the whole result of an application attempt is unchanged by
what the form's free-text inputs do (absent fields, rejecting fields), so
this step can never cause the Failed state by itself. -/
theorem form_handling_never_fails (b : Bool) (l : List Bool) (c : Nat) (t : String)
    (j : Job) (co : String) (e : ApplyEnv) :
    handle_application_form b l = Except.ok () ∧
    apply_to_job c t j co { e with findInputsOk := b, formInputs := l } =
      apply_to_job c t j co e := by
  refine ⟨handle_application_form_ok b l, ?_⟩
  obtain ⟨nav, ea, fi, ins, sub, lw⟩ := e
  cases nav <;> cases ea <;> cases sub <;>
    simp [apply_to_job, handle_application_form_ok]

/-- C10: every row handed to the Ledger Writer carries the constant
salary text `$500+`, the constant status `Postulado` and the constant
note `Automated`, independent of the posting; the posting contributes
only the title, company, region and link columns. -/
theorem ledger_row_constant_fields (env : RunEnv) :
    (∀ r ∈ (run env).final.ledger,
      r.salary = "$500+" ∧ r.status = "Postulado" ∧ r.note = "Automated") ∧
    (∀ a ∈ (run env).final.attempts, ∀ r ∈ a.result.invoked,
      r.salary = "$500+" ∧ r.status = "Postulado" ∧ r.note = "Automated" ∧
      r.title = a.job.title ∧ r.company = a.job.company ∧
      r.country = a.country ∧ r.link = a.job.link) := by
  obtain ⟨-, ha, hl⟩ := run_inv env
  constructor
  · intro r hr
    exact hl r hr
  · intro a hmem r hr
    obtain ⟨-, heq⟩ := ha a hmem
    rw [heq, apply_invoked_eq] at hr
    split at hr
    · simp only [List.mem_singleton] at hr
      subst hr
      exact ⟨rfl, rfl, rfl, rfl, rfl, rfl, rfl⟩
    · simp at hr

theorem ledger_row_constant_fields_witness :
    rowB.salary = "$500+" ∧ rowB.status = "Postulado" ∧ rowB.note = "Automated" :=
  (ledger_row_constant_fields runEnvA).1 rowB (by decide)

end LinkedInAutomation
